import Mathlib

/-
Verification of the MXUser lock-instrumentation layer
(open-vm-tools, lib/lock/ul.c).

The embedding below translates the C source into Lean:

* machine integers (uint32, MX_Rank) become Nat, with an explicit
  reduction modulo 2^32 where the C code masks with 0xFFFFFFFF;
* the per-thread MXUserPerThread record (a count plus a fixed-capacity
  dense array of MXUserHeader pointers) is modelled by the list of its
  first locksHeld entries; the capacity bound is checked explicitly,
  exactly where the C code performs the VERIFY;
* fatal paths (VERIFY or ASSERT failure, MXUserDumpAndPanic) become an
  error of the inductive type MXPanic; a C function that either returns
  normally or panics becomes a function into Except MXPanic;
* C pointer identity on MXUserHeader objects is modelled by value
  equality on the MXUserHeader structure (headers of distinct lock
  objects differ at least in their serial number);
* the optional legacy-module (MX) hook function pointers become Option
  values: none models a NULL pointer; for the rank-query and the
  in-panic hooks the value carried is the result the hook would return
  for the call under consideration.
-/

namespace MXUser

/-- Modelled from the spec: the sentinel rank meaning "unranked".  The
constant RANK_UNRANKED lives in the mutexRank.h header, which is not part
of the sources here; the spec calls it only "the sentinel unranked".  The
reserved sentinel is the zero rank, the smallest value, so that the
maximum-rank computation of MXUserThreadRank may start from it. -/
def RANK_UNRANKED : Nat := 0

/-- Modelled from the spec: the maximum supported lock recursion depth
MXUSER_MAX_REC_DEPTH, defined in the ulInt.h header, which is not part of
the sources here.  The claims are stated relative to the derived capacity,
so they do not depend on the particular value. -/
def MXUSER_MAX_REC_DEPTH : Nat := 16

/-- Capacity of a per-thread tracking record, ul.c line 416:
2 * MXUSER_MAX_REC_DEPTH. -/
def MXUSER_MAX_LOCKS_PER_THREAD : Nat := 2 * MXUSER_MAX_REC_DEPTH

/-- Modelled from the spec: the reserved "never use" object-type tag of the
MXUserObjectType enumeration (declared in the ulIntShared.h header, not part
of the sources here); it is the zero tag, the reserved first enumerator. -/
def MXUSER_TYPE_NEVER_USE : Nat := 0

/-- Modelled from the spec: a lock header (struct MXUserHeader, declared in
a header file not part of the sources here).  Per the spec it carries a
display name, a 32-bit signature, a non-zero serial number, a rank (or the
unranked sentinel) and a sticky bad-header flag.  The dump callback is not
modelled: its only role is on the fatal paths, which the embedding records
as MXPanic values. -/
structure MXUserHeader where
  name : String
  signature : Nat
  serialNumber : Nat
  rank : Nat
  badHeader : Bool
  deriving DecidableEq, Repr

/-- Fatal outcomes of the tracked operations: each constructor records which
VERIFY/ASSERT or MXUserDumpAndPanic site fired. -/
inductive MXPanic where
  /-- VERIFY(perThread->locksHeld < MXUSER_MAX_LOCKS_PER_THREAD), ul.c:747 -/
  | resourceExhaustion
  /-- rank-violation MXUserDumpAndPanic, ul.c:794, carrying maxRank -/
  | rankViolation (maxRank : Nat)
  /-- missing perThread on release, ul.c:849 -/
  | perThreadMissing
  /-- released lock not found in the perThread, ul.c:862 -/
  | lockMissing
  /-- ASSERT on the objectType range in MXUserGetSignature, ul.c:230 -/
  | badObjectType
  /-- signature-mismatch MXUserDumpAndPanic, ul.c:940 -/
  | signatureMismatch (expected observed : Nat)
  /-- invalid-serial-number MXUserDumpAndPanic, ul.c:949 -/
  | invalidSerial
  /-- mismatched re-registration ASSERT in MXUserInstallMxHooks, ul.c:402 -/
  | hookMismatch
  deriving DecidableEq, Repr

/-- MXUserSyndrome, ul.c:170-206.  The static Atomic_uint32 syndromeMem is
the argument stored; the coarse time source (time(NULL), masked to 32 bits)
is the argument timeVal.  If the stored word is zero the syndrome is
computed from the time source, bumped away from zero, published (the
compare-and-swap from zero succeeds, as the stored word is zero) and
re-read; otherwise the stored word is returned. -/
def MXUserSyndrome (stored timeVal : Nat) : Nat :=
  if stored = 0 then
    let s := timeVal % 2 ^ 32
    if s = 0 then s + 1 else s
  else
    stored

/-- Signature value built by MXUserGetSignature, ul.c:241:
(MXUserSyndrome() & 0x0FFFFFFF) | (objectType << 28). -/
def mxSignatureOf (stored timeVal objectType : Nat) : Nat :=
  (MXUserSyndrome stored timeVal &&& 0x0FFFFFFF) ||| (objectType <<< 28)

/-- MXUserGetSignature, ul.c:225-246.  none models a failed ASSERT: either
the objectType range/never-use ASSERT at entry, or the ASSERT(signature)
on the computed value. -/
def MXUserGetSignature (stored timeVal objectType : Nat) : Option Nat :=
  if objectType < 16 ∧ objectType ≠ MXUSER_TYPE_NEVER_USE then
    if mxSignatureOf stored timeVal objectType ≠ 0 then
      some (mxSignatureOf stored timeVal objectType)
    else
      none
  else
    none

/-- MXUserValidateHeader, ul.c:927-952.  On a fatal path the C code sets
header->badHeader before dumping and panicking; the embedding records the
panic kind (the sticky flag matters only to later calls, which a panic
precludes).  A bad header short-circuits to a normal return. -/
def MXUserValidateHeader (stored timeVal : Nat) (header : MXUserHeader)
    (objectType : Nat) : Except MXPanic MXUserHeader :=
  match MXUserGetSignature stored timeVal objectType with
  | none => .error .badObjectType
  | some expected =>
    if header.badHeader then
      .ok header
    else if header.signature ≠ expected then
      .error (.signatureMismatch expected header.signature)
    else if header.serialNumber = 0 then
      .error .invalidSerial
    else
      .ok header

/-- MXUser_InPanic, ul.c:340-344: the local mxInPanic flag, or the legacy
module's in-panic query when that hook is registered (mxHookInPanic carries
the value the hook returns; none models a NULL hook pointer). -/
def MXUser_InPanic (mxInPanic : Bool) (mxHookInPanic : Option Bool) : Bool :=
  mxInPanic || mxHookInPanic.getD false

/-- MXUserThreadRank, ul.c:658-689.  One left-to-right scan of the held
array computing MAX(chkHdr->rank, maxRank) from RANK_UNRANKED, and the
firstUse flag: initialized TRUE and forced FALSE by any entry equal to the
header being acquired.  Returns (maxRank, firstUse). -/
def MXUserThreadRank (locks : List MXUserHeader) (header : MXUserHeader) :
    Nat × Bool :=
  locks.foldl
    (fun acc chkHdr =>
      (max chkHdr.rank acc.1, if chkHdr = header then false else acc.2))
    (RANK_UNRANKED, true)

/-- MXUserAcquisitionTracking, ul.c:741-821.  The VERIFY on the capacity
runs first; then, when checkRank is requested, the header is ranked and the
process is not panicking, the rank check of ul.c:783 may panic; otherwise
the header is appended to the thread's held array (ul.c:800).  The
locking-tree maintenance at the end of the C function only feeds an
external collaborator and does not touch the tracking state, so it is not
modelled.  mxCheckRank carries the value the MXUserMxCheckRank hook would
return (none models a NULL hook pointer). -/
def MXUserAcquisitionTracking (locks : List MXUserHeader)
    (mxCheckRank : Option Nat) (mxInPanic : Bool) (mxHookInPanic : Option Bool)
    (header : MXUserHeader) (checkRank : Bool) :
    Except MXPanic (List MXUserHeader) :=
  if ¬ (locks.length < MXUSER_MAX_LOCKS_PER_THREAD) then
    .error .resourceExhaustion
  else if checkRank = true ∧ header.rank ≠ RANK_UNRANKED ∧
      MXUser_InPanic mxInPanic mxHookInPanic = false then
    let tr := MXUserThreadRank locks header
    let maxRank :=
      match mxCheckRank with
      | some r => max tr.1 r
      | none => tr.1
    if tr.2 = true ∧ header.rank ≤ maxRank then
      .error (.rankViolation maxRank)
    else
      .ok (locks ++ [header])
  else
    .ok (locks ++ [header])

/-- Linear scan of MXUserReleaseTracking, ul.c:854-858: the index of the
first entry equal to the argument header, or the length of the array when
no entry matches (the C loop leaves i equal to locksHeld in that case). -/
def findLockIdx : List MXUserHeader → MXUserHeader → Nat
  | [], _ => 0
  | chkHdr :: rest, header =>
    if chkHdr = header then 0 else findLockIdx rest header + 1

/-- MXUserReleaseTracking, ul.c:840-881.  A missing perThread record or a
header not present in it is a fatal dump-and-panic; otherwise the entries
after the found index are shifted down by one (the compaction loop of
ul.c:871-877), the vacated trailing slot is cleared and the count
decremented — on the dense-prefix model this is List.eraseIdx at the found
index. -/
def MXUserReleaseTracking (perThread : Option (List MXUserHeader))
    (header : MXUserHeader) : Except MXPanic (List MXUserHeader) :=
  match perThread with
  | none => .error .perThreadMissing
  | some locks =>
    let i := findLockIdx locks header
    if locks.length ≤ i then
      .error .lockMissing
    else
      .ok (locks.eraseIdx i)

/-- Acquire/release tracking calls issued by one thread. -/
inductive LockOp where
  | acquire (header : MXUserHeader) (checkRank : Bool)
  | release (header : MXUserHeader)
  deriving DecidableEq, Repr

/-- One tracking call of a single thread.  The state is the thread's
perThread record: none when none was ever allocated.  An acquire goes
through MXUserGetPerThread(TRUE), which allocates a zeroed record when none
exists (ul.c:745, 543-577), so it acts on the empty list in that case; a
release goes through MXUserGetPerThread(FALSE), which can yield NULL. -/
def stepOp (mxCheckRank : Option Nat) (mxInPanic : Bool)
    (mxHookInPanic : Option Bool) (s : Option (List MXUserHeader)) :
    LockOp → Except MXPanic (List MXUserHeader)
  | .acquire header checkRank =>
    MXUserAcquisitionTracking (s.getD []) mxCheckRank mxInPanic mxHookInPanic
      header checkRank
  | .release header => MXUserReleaseTracking s header

/-- Run a sequence of tracking calls of a single thread, stopping at the
first panic. -/
def runOps (mxCheckRank : Option Nat) (mxInPanic : Bool)
    (mxHookInPanic : Option Bool) :
    List LockOp → Option (List MXUserHeader) →
    Except MXPanic (Option (List MXUserHeader))
  | [], s => .ok s
  | op :: rest, s =>
    match stepOp mxCheckRank mxInPanic mxHookInPanic s op with
    | .ok locks => runOps mxCheckRank mxInPanic mxHookInPanic rest (some locks)
    | .error e => .error e

/-- Specification-side held set, following the spec's words: "the tracker's
held set after any prefix equals exactly the multiset of
acquired-but-not-yet-released headers (order of acquisition preserved for
unreleased entries)".  An acquisition appends at the end; a release cancels
the earliest still-tracked instance of its header. -/
def specHeldStep (held : List MXUserHeader) : LockOp → List MXUserHeader
  | .acquire header _ => held ++ [header]
  | .release header => held.erase header

/-- Specification-side held set after a whole sequence of calls. -/
def specHeldLocks (ops : List LockOp) : List MXUserHeader :=
  ops.foldl specHeldStep []

/-- Number of acquisitions of a given header in a call sequence. -/
def countAcquires (header : MXUserHeader) : List LockOp → Nat
  | [] => 0
  | .acquire h _ :: rest =>
    (if h = header then 1 else 0) + countAcquires header rest
  | .release _ :: rest => countAcquires header rest

/-- Number of releases of a given header in a call sequence. -/
def countReleases (header : MXUserHeader) : List LockOp → Nat
  | [] => 0
  | .acquire _ _ :: rest => countReleases header rest
  | .release h :: rest =>
    (if h = header then 1 else 0) + countReleases header rest

/-- Maximum rank among a thread's held headers, starting from the unranked
sentinel (the specification-side reading of the scan of ul.c:674-682). -/
def heldMaxRank (locks : List MXUserHeader) : Nat :=
  locks.foldl (fun m chkHdr => max chkHdr.rank m) RANK_UNRANKED

/-- Maximum held rank merged with the legacy rank-query hook's answer, when
that hook is registered (ul.c:767-769). -/
def mergedMaxRank (locks : List MXUserHeader) (mxCheckRank : Option Nat) :
    Nat :=
  match mxCheckRank with
  | some r => max (heldMaxRank locks) r
  | none => heldMaxRank locks

/-- The nine legacy-module hook slots installed by MXUserInstallMxHooks,
ul.c:33-41.  Function pointers are modelled as Option Nat: none is a NULL
pointer, and distinct functions carry distinct numbers. -/
structure MxHookSet where
  lockLister : Option Nat
  checkRank : Option Nat
  lockRec : Option Nat
  unlockRec : Option Nat
  tryLockRec : Option Nat
  isLockedRec : Option Nat
  nameRec : Option Nat
  setInPanicRec : Option Nat
  inPanicRec : Option Nat
  deriving DecidableEq, Repr

/-- Initial state of the hook slots: all nine static pointers are NULL. -/
def emptyMxHooks : MxHookSet :=
  ⟨none, none, none, none, none, none, none, none, none⟩

/-- MXUserInstallMxHooks, ul.c:365-413.  cur is the current state of the
nine global slots and supplied the nine arguments of the call.  If every
slot is NULL the supplied values are installed; otherwise every supplied
value must equal the corresponding slot, a mismatch being a fatal ASSERT
(modelled as none).  On a normal return the new state of the slots is
returned. -/
def MXUserInstallMxHooks (cur supplied : MxHookSet) : Option MxHookSet :=
  if cur.lockLister = none ∧ cur.checkRank = none ∧ cur.lockRec = none ∧
      cur.unlockRec = none ∧ cur.tryLockRec = none ∧ cur.isLockedRec = none ∧
      cur.nameRec = none ∧ cur.setInPanicRec = none ∧ cur.inPanicRec = none then
    some supplied
  else if cur.lockLister = supplied.lockLister ∧
      cur.checkRank = supplied.checkRank ∧ cur.lockRec = supplied.lockRec ∧
      cur.unlockRec = supplied.unlockRec ∧
      cur.tryLockRec = supplied.tryLockRec ∧
      cur.isLockedRec = supplied.isLockedRec ∧
      cur.nameRec = supplied.nameRec ∧
      cur.setInPanicRec = supplied.setInPanicRec ∧
      cur.inPanicRec = supplied.inPanicRec then
    some cur
  else
    none

/-! Helper lemmas about the embedded operations. -/

/-- Characterization of the scan of MXUserThreadRank: the first component is
the maximum held rank and the second is true exactly when the header is not
yet tracked. -/
theorem threadRank_eq (locks : List MXUserHeader) (header : MXUserHeader) :
    MXUserThreadRank locks header
      = (heldMaxRank locks, decide (header ∉ locks)) := by
  have aux : ∀ (l : List MXUserHeader) (m : Nat) (b : Bool),
      l.foldl
        (fun acc chkHdr =>
          (max chkHdr.rank acc.1, if chkHdr = header then false else acc.2))
        (m, b)
      = (l.foldl (fun m chkHdr => max chkHdr.rank m) m,
         b && decide (header ∉ l)) := by
    intro l
    induction l with
    | nil => intro m b; simp
    | cons a t ih =>
      intro m b
      simp only [List.foldl_cons, ih]
      refine Prod.ext rfl ?_
      by_cases ha : a = header
      · simp [ha]
      · simp [ha, Ne.symm ha]
  simpa [MXUserThreadRank, heldMaxRank] using aux locks RANK_UNRANKED true

/-- When the header is absent the scan of MXUserReleaseTracking runs off the
end of the held array. -/
theorem findLockIdx_of_not_mem (locks : List MXUserHeader)
    (header : MXUserHeader) (h : header ∉ locks) :
    findLockIdx locks header = locks.length := by
  induction locks with
  | nil => rfl
  | cons a t ih =>
    simp only [List.mem_cons, not_or] at h
    simp [findLockIdx, Ne.symm h.1, ih h.2]

/-- When the header is present the scan of MXUserReleaseTracking stops at a
position inside the held array. -/
theorem findLockIdx_lt_of_mem (locks : List MXUserHeader)
    (header : MXUserHeader) (h : header ∈ locks) :
    findLockIdx locks header < locks.length := by
  induction locks with
  | nil => simp at h
  | cons a t ih =>
    by_cases ha : a = header
    · simp [findLockIdx, ha]
    · rcases List.mem_cons.mp h with h1 | h2
      · exact absurd h1.symm ha
      · simpa [findLockIdx, ha] using ih h2

/-- Removing the entry the scan stopped at removes the first tracked
instance of the header. -/
theorem eraseIdx_findLockIdx (locks : List MXUserHeader)
    (header : MXUserHeader) (h : header ∈ locks) :
    locks.eraseIdx (findLockIdx locks header) = locks.erase header := by
  induction locks with
  | nil => simp at h
  | cons a t ih =>
    by_cases ha : a = header
    · simp [findLockIdx, ha, List.eraseIdx]
    · rcases List.mem_cons.mp h with h1 | h2
      · exact absurd h1.symm ha
      · have hb : ¬ (a == header) = true := by simp [ha]
        simp [findLockIdx, ha, List.eraseIdx, List.erase_cons_tail hb, ih h2]

/-- The scan of MXUserReleaseTracking finds the first matching index. -/
theorem findLockIdx_first (locks : List MXUserHeader) (header : MXUserHeader)
    (i : Nat) (hfirst : ∀ j, j < i → locks[j]? ≠ some header)
    (hi : locks[i]? = some header) : findLockIdx locks header = i := by
  induction locks generalizing i with
  | nil => simp at hi
  | cons a t ih =>
    cases i with
    | zero =>
      simp at hi
      simp [findLockIdx, hi]
    | succ k =>
      have ha : a ≠ header := by
        have := hfirst 0 (Nat.succ_pos k)
        simpa using this
      have hk : findLockIdx t header = k := by
        apply ih
        · intro j hj
          have := hfirst (j + 1) (Nat.succ_lt_succ hj)
          simpa using this
        · simpa using hi
      simp [findLockIdx, ha, hk]

/-- A natural number with a non-zero or-operand is non-zero. -/
theorem lor_ne_zero_right (x y : Nat) (hy : y ≠ 0) : x ||| y ≠ 0 := by
  intro h
  apply hy
  apply Nat.zero_of_testBit_eq_false
  intro i
  have hb := congrArg (fun z => Nat.testBit z i) h
  simp only [Nat.testBit_lor, Nat.zero_testBit, Bool.or_eq_false_iff] at hb
  exact hb.2

/-- The object-type nibble placed in bits 28-31 of a signature can be
recovered: two signatures built over the same low 28 bits agree only when
the shifted values agree. -/
theorem lor_shift_inj (a t t2 : Nat) (ha : a < 2 ^ 28)
    (h : a ||| (t <<< 28) = a ||| (t2 <<< 28)) : t = t2 := by
  apply Nat.eq_of_testBit_eq
  intro i
  have hb := congrArg (fun z => Nat.testBit z (28 + i)) h
  have hai : Nat.testBit a (28 + i) = false :=
    Nat.testBit_eq_false_of_lt
      (lt_of_lt_of_le ha
        (Nat.pow_le_pow_right (by norm_num) (Nat.le_add_right 28 i)))
  simp only [Nat.testBit_lor, Nat.testBit_shiftLeft, hai, Bool.false_or,
    ge_iff_le, Nat.le_add_right, decide_True, Bool.true_and,
    Nat.add_sub_cancel_left] at hb
  exact hb

/-- Every normal return of MXUserAcquisitionTracking appends the acquired
header at the end of the thread's held array. -/
theorem acquisition_ok_shape (locks : List MXUserHeader)
    (mxCheckRank : Option Nat) (mxInPanic : Bool) (mxHookInPanic : Option Bool)
    (header : MXUserHeader) (checkRank : Bool) (l : List MXUserHeader)
    (h : MXUserAcquisitionTracking locks mxCheckRank mxInPanic mxHookInPanic
      header checkRank = .ok l) :
    l = locks ++ [header] := by
  simp only [MXUserAcquisitionTracking] at h
  split_ifs at h <;> simp_all

/-- Every normal return of MXUserReleaseTracking removes the first tracked
instance of the released header from an existing record that holds it. -/
theorem release_ok_shape (perThread : Option (List MXUserHeader))
    (header : MXUserHeader) (l : List MXUserHeader)
    (h : MXUserReleaseTracking perThread header = .ok l) :
    ∃ locks, perThread = some locks ∧ header ∈ locks ∧
      l = locks.erase header := by
  match perThread with
  | none => simp [MXUserReleaseTracking] at h
  | some locks =>
    refine ⟨locks, rfl, ?_⟩
    simp only [MXUserReleaseTracking] at h
    split_ifs at h with hc
    have hmem : header ∈ locks := by
      by_contra hmm
      exact hc (le_of_eq (findLockIdx_of_not_mem locks header hmm).symm)
    refine ⟨hmem, ?_⟩
    simp only [Except.ok.injEq] at h
    rw [← h, eraseIdx_findLockIdx locks header hmem]

/-! Concrete headers used by the witnesses. -/

/-- A lock header of rank 30. -/
def hdrRank30 : MXUserHeader := ⟨"a", 0, 1, 30, false⟩

/-- A lock header of rank 20. -/
def hdrRank20 : MXUserHeader := ⟨"b", 0, 2, 20, false⟩

/-- A family of pairwise distinct lock headers of rank 30. -/
def mkHdr (n : Nat) : MXUserHeader := ⟨"lock", 0, n + 1, 30, false⟩

/-! Claim theorems. -/

/-- C1: for every acquisition call on a header with checkRank requested, the
header's rank not the unranked sentinel, and the process not in panic state:
if the header is not already present in the calling thread's held set and
the header's rank is at most the maximum rank merged from the thread's held
headers and the legacy rank-query hook (when registered), the operation
fails fatally with the rank-violation dump-and-panic carrying the merged
maximum rank; otherwise no violation is reported and the header is
tracked. -/
theorem mxuser_c1 (locks : List MXUserHeader) (mxCheckRank : Option Nat)
    (mxInPanic : Bool) (mxHookInPanic : Option Bool) (header : MXUserHeader)
    (hcap : locks.length < MXUSER_MAX_LOCKS_PER_THREAD)
    (hrank : header.rank ≠ RANK_UNRANKED)
    (hpanic : MXUser_InPanic mxInPanic mxHookInPanic = false) :
    MXUserAcquisitionTracking locks mxCheckRank mxInPanic mxHookInPanic
      header true
    = if header ∉ locks ∧ header.rank ≤ mergedMaxRank locks mxCheckRank then
        .error (.rankViolation (mergedMaxRank locks mxCheckRank))
      else
        .ok (locks ++ [header]) := by
  cases mxCheckRank <;>
    simp [MXUserAcquisitionTracking, threadRank_eq, mergedMaxRank, hcap,
      hrank, hpanic]

/-- Witness for C1: holding a rank-30 lock, acquiring a distinct rank-20
lock with rank checking on. -/
theorem mxuser_c1_witness :
    MXUserAcquisitionTracking [hdrRank30] none false none hdrRank20 true
    = if hdrRank20 ∉ [hdrRank30] ∧
          hdrRank20.rank ≤ mergedMaxRank [hdrRank30] none then
        .error (.rankViolation (mergedMaxRank [hdrRank30] none))
      else
        .ok ([hdrRank30] ++ [hdrRank20]) :=
  mxuser_c1 [hdrRank30] none false none hdrRank20 (by decide) (by decide)
    (by decide)

/-- C3: a thread that already holds a header (it is present in its tracker
record) is never rank-checked on re-acquisition: for any rank, hook and
panic state the call returns normally and appends the header again. -/
theorem mxuser_c3 (locks : List MXUserHeader) (mxCheckRank : Option Nat)
    (mxInPanic : Bool) (mxHookInPanic : Option Bool) (header : MXUserHeader)
    (checkRank : Bool) (hmem : header ∈ locks)
    (hcap : locks.length < MXUSER_MAX_LOCKS_PER_THREAD) :
    MXUserAcquisitionTracking locks mxCheckRank mxInPanic mxHookInPanic
      header checkRank = .ok (locks ++ [header]) := by
  simp only [MXUserAcquisitionTracking, threadRank_eq]
  split_ifs <;> simp_all

/-- Witness for C3: re-acquiring the held rank-30 lock with rank checking
on, an equal rank being otherwise a violation. -/
theorem mxuser_c3_witness :
    MXUserAcquisitionTracking [hdrRank30] none false none hdrRank30 true
      = .ok ([hdrRank30] ++ [hdrRank30]) :=
  mxuser_c3 [hdrRank30] none false none hdrRank30 true (by decide)
    (by decide)

/-- C9: the capacity VERIFY precedes all rank checking: an acquisition that
both exceeds the capacity and constitutes a rank violation terminates with
the resource-exhaustion panic, and no rank-violation diagnostics are
emitted. -/
theorem mxuser_c9 (locks : List MXUserHeader) (mxCheckRank : Option Nat)
    (mxInPanic : Bool) (mxHookInPanic : Option Bool) (header : MXUserHeader)
    (hcap : MXUSER_MAX_LOCKS_PER_THREAD ≤ locks.length)
    (_hfirst : header ∉ locks)
    (_hviol : header.rank ≤ mergedMaxRank locks mxCheckRank)
    (_hrank : header.rank ≠ RANK_UNRANKED)
    (_hpanic : MXUser_InPanic mxInPanic mxHookInPanic = false) :
    MXUserAcquisitionTracking locks mxCheckRank mxInPanic mxHookInPanic
      header true = .error .resourceExhaustion := by
  simp [MXUserAcquisitionTracking, Nat.not_lt.mpr hcap]

/-- Witness for C9: a thread holding a full array of 32 rank-30 locks
acquiring a fresh rank-20 lock (a rank violation as well) panics with
resource exhaustion. -/
theorem mxuser_c9_witness :
    MXUserAcquisitionTracking
      ((List.range MXUSER_MAX_LOCKS_PER_THREAD).map mkHdr) none false none
      hdrRank20 true = .error .resourceExhaustion :=
  mxuser_c9 ((List.range MXUSER_MAX_LOCKS_PER_THREAD).map mkHdr) none false
    none hdrRank20 (by decide) (by decide) (by decide) (by decide)
    (by decide)

/-! Lemmas about running call sequences. -/

/-- Acquisition calls without rank checking for a list of headers. -/
def acqOpsOf (hs : List MXUserHeader) : List LockOp :=
  hs.map (fun h => .acquire h false)

/-- Unfolding equation for a run starting with one call. -/
theorem runOps_cons (mxCheckRank : Option Nat) (mxInPanic : Bool)
    (mxHookInPanic : Option Bool) (op : LockOp) (rest : List LockOp)
    (s : Option (List MXUserHeader)) :
    runOps mxCheckRank mxInPanic mxHookInPanic (op :: rest) s
    = match stepOp mxCheckRank mxInPanic mxHookInPanic s op with
      | .ok locks => runOps mxCheckRank mxInPanic mxHookInPanic rest
          (some locks)
      | .error e => .error e := rfl

/-- An unchecked acquisition below the capacity returns normally. -/
theorem acquisition_no_check (locks : List MXUserHeader)
    (mxCheckRank : Option Nat) (mxInPanic : Bool)
    (mxHookInPanic : Option Bool) (header : MXUserHeader)
    (hlt : locks.length < MXUSER_MAX_LOCKS_PER_THREAD) :
    MXUserAcquisitionTracking locks mxCheckRank mxInPanic mxHookInPanic
      header false = .ok (locks ++ [header]) := by
  simp [MXUserAcquisitionTracking, hlt]

/-- Unchecked acquisitions that fit within the remaining capacity all
return normally and append in order. -/
theorem runAcquiresWithin (mxCheckRank : Option Nat) (mxInPanic : Bool)
    (mxHookInPanic : Option Bool) (hs : List MXUserHeader)
    (l : List MXUserHeader)
    (h : l.length + hs.length ≤ MXUSER_MAX_LOCKS_PER_THREAD) :
    runOps mxCheckRank mxInPanic mxHookInPanic (acqOpsOf hs) (some l)
      = .ok (some (l ++ hs)) := by
  induction hs generalizing l with
  | nil => simp [acqOpsOf, runOps]
  | cons a t ih =>
    have hlt : l.length < MXUSER_MAX_LOCKS_PER_THREAD := by
      simp only [List.length_cons] at h
      omega
    have hstep : stepOp mxCheckRank mxInPanic mxHookInPanic (some l)
        (.acquire a false) = .ok (l ++ [a]) := by
      simp [stepOp, acquisition_no_check _ _ _ _ _ hlt]
    have hrest : (l ++ [a]).length + t.length ≤ MXUSER_MAX_LOCKS_PER_THREAD := by
      simp only [List.length_cons] at h
      simp [List.length_append]
      omega
    simp only [acqOpsOf, List.map_cons, runOps_cons, hstep]
    exact (ih _ hrest).trans (by simp)

/-- Unchecked acquisitions overflowing the capacity panic with resource
exhaustion. -/
theorem runAcquiresOverflow (mxCheckRank : Option Nat) (mxInPanic : Bool)
    (mxHookInPanic : Option Bool) (hs : List MXUserHeader)
    (l : List MXUserHeader)
    (hover : MXUSER_MAX_LOCKS_PER_THREAD < l.length + hs.length)
    (hl : l.length ≤ MXUSER_MAX_LOCKS_PER_THREAD) :
    runOps mxCheckRank mxInPanic mxHookInPanic (acqOpsOf hs) (some l)
      = .error .resourceExhaustion := by
  induction hs generalizing l with
  | nil =>
    simp only [List.length_nil, Nat.add_zero] at hover
    omega
  | cons a t ih =>
    by_cases hlt : l.length < MXUSER_MAX_LOCKS_PER_THREAD
    · have hstep : stepOp mxCheckRank mxInPanic mxHookInPanic (some l)
          (.acquire a false) = .ok (l ++ [a]) := by
        simp [stepOp, acquisition_no_check _ _ _ _ _ hlt]
      have h1 : MXUSER_MAX_LOCKS_PER_THREAD < (l ++ [a]).length + t.length := by
        simp only [List.length_cons] at hover
        simp [List.length_append]
        omega
      have h2 : (l ++ [a]).length ≤ MXUSER_MAX_LOCKS_PER_THREAD := by
        simp [List.length_append]
        omega
      simp only [acqOpsOf, List.map_cons, runOps_cons, hstep]
      exact ih _ h1 h2
    · have hstep : stepOp mxCheckRank mxInPanic mxHookInPanic (some l)
          (.acquire a false) = .error .resourceExhaustion := by
        simp [stepOp, MXUserAcquisitionTracking, hlt]
      simp [acqOpsOf, runOps_cons, hstep]

/-- C4: acquiring capacity + 1 distinct headers on one thread without
releasing fails with the resource-exhaustion VERIFY exactly on the last
acquisition: the whole sequence panics with resource exhaustion while
every prefix of at most capacity acquisitions returns normally. -/
theorem mxuser_c4 (mxCheckRank : Option Nat) (mxInPanic : Bool)
    (mxHookInPanic : Option Bool) (hs : List MXUserHeader)
    (hlen : hs.length = MXUSER_MAX_LOCKS_PER_THREAD + 1)
    (_hnd : hs.Nodup) :
    runOps mxCheckRank mxInPanic mxHookInPanic (acqOpsOf hs) none
      = .error .resourceExhaustion ∧
    ∀ k, k ≤ MXUSER_MAX_LOCKS_PER_THREAD →
      ∃ s, runOps mxCheckRank mxInPanic mxHookInPanic
        (acqOpsOf (hs.take k)) none = .ok s := by
  match hs, hlen with
  | a :: t, hlen =>
    have ht : t.length = MXUSER_MAX_LOCKS_PER_THREAD := by
      simpa using hlen
    have hstep : stepOp mxCheckRank mxInPanic mxHookInPanic none
        (.acquire a false) = .ok [a] := by
      simp [stepOp, MXUserAcquisitionTracking, MXUSER_MAX_LOCKS_PER_THREAD,
        MXUSER_MAX_REC_DEPTH]
    constructor
    · have hover : MXUSER_MAX_LOCKS_PER_THREAD < [a].length + t.length := by
        simp [ht]
      have := runAcquiresOverflow mxCheckRank mxInPanic mxHookInPanic t [a]
        hover (by simp [MXUSER_MAX_LOCKS_PER_THREAD, MXUSER_MAX_REC_DEPTH])
      simpa [acqOpsOf, runOps_cons, hstep] using this
    · intro k hk
      cases k with
      | zero => exact ⟨none, rfl⟩
      | succ m =>
        have hm : [a].length + (t.take m).length ≤
            MXUSER_MAX_LOCKS_PER_THREAD := by
          have : (t.take m).length ≤ m := by
            simp [List.length_take]
          simp only [List.length_cons, List.length_nil]
          omega
        refine ⟨some ([a] ++ t.take m), ?_⟩
        have := runAcquiresWithin mxCheckRank mxInPanic mxHookInPanic
          (t.take m) [a] hm
        simpa [acqOpsOf, List.take_cons, runOps_cons, hstep] using this

/-- Headers used by the capacity witness: capacity + 1 distinct headers. -/
def wHdrs : List MXUserHeader :=
  (List.range (MXUSER_MAX_LOCKS_PER_THREAD + 1)).map mkHdr

/-- Witness for C4: 33 distinct headers acquired on one thread panic with
resource exhaustion. -/
theorem mxuser_c4_witness :
    runOps none false none (acqOpsOf wHdrs) none
      = .error .resourceExhaustion :=
  (mxuser_c4 none false none wHdrs (by decide) (by decide)).1

/-- Main run invariant: a run of tracking calls that returns normally
leaves the thread's record equal to the specification-side held set fold,
and per header the held count plus the number of releases equals the
number of acquisitions. -/
theorem runOps_spec (mxCheckRank : Option Nat) (mxInPanic : Bool)
    (mxHookInPanic : Option Bool) (ops : List LockOp) :
    ∀ s s2 : Option (List MXUserHeader),
      runOps mxCheckRank mxInPanic mxHookInPanic ops s = .ok s2 →
      s2.getD [] = ops.foldl specHeldStep (s.getD []) ∧
      ∀ hdr, (s2.getD []).count hdr + countReleases hdr ops
           = (s.getD []).count hdr + countAcquires hdr ops := by
  induction ops with
  | nil =>
    intro s s2 h
    simp only [runOps, Except.ok.injEq] at h
    subst h
    simp [countAcquires, countReleases]
  | cons op rest ih =>
    intro s s2 h
    cases hstep : stepOp mxCheckRank mxInPanic mxHookInPanic s op with
    | error e => simp [runOps_cons, hstep] at h
    | ok l1 =>
      simp only [runOps_cons, hstep] at h
      obtain ⟨ih1, ih2⟩ := ih (some l1) s2 h
      cases op with
      | acquire hdr0 chk =>
        have hl1 : l1 = s.getD [] ++ [hdr0] :=
          acquisition_ok_shape _ _ _ _ _ _ _ hstep
        subst hl1
        constructor
        · rw [ih1]
          simp [specHeldStep]
        · intro hdr
          have hc := ih2 hdr
          by_cases he : hdr0 = hdr
          · subst he
            simp only [Option.getD_some, List.count_append,
              List.count_singleton] at hc
            simp only [countAcquires, countReleases, if_pos rfl]
            simp at hc ⊢
            omega
          · have hz : List.count hdr [hdr0] = 0 := by
              simp [List.count_singleton', he]
            simp only [Option.getD_some, List.count_append, hz] at hc
            simp only [countAcquires, countReleases, if_neg he]
            omega
      | release hdr0 =>
        obtain ⟨locks, hsome, hmem, hl1⟩ := release_ok_shape s hdr0 l1 hstep
        subst hl1
        have hgd : s.getD [] = locks := by rw [hsome]; rfl
        constructor
        · rw [ih1]
          simp [specHeldStep, hgd]
        · intro hdr
          have hc := ih2 hdr
          have hpos : 0 < locks.count hdr0 := by
            rw [List.count_pos_iff]
            exact hmem
          by_cases he : hdr0 = hdr
          · subst he
            rw [Option.getD_some, List.count_erase_self] at hc
            simp only [countAcquires, countReleases, if_pos rfl, hgd]
            simp only [if_true]
            omega
          · rw [Option.getD_some,
              List.count_erase_of_ne (Ne.symm he)] at hc
            simp only [countAcquires, countReleases, if_neg he, hgd]
            omega

/-- C2: for every sequence of acquire and release tracking calls of a
single thread that returns normally, the tracker record holds exactly the
multiset of headers acquired but not yet released — the held list equals
the specification-side fold (unreleased entries in acquisition order), and
per header the held count plus the release count equals the acquisition
count. -/
theorem mxuser_c2 (mxCheckRank : Option Nat) (mxInPanic : Bool)
    (mxHookInPanic : Option Bool) (ops : List LockOp)
    (s2 : Option (List MXUserHeader))
    (h : runOps mxCheckRank mxInPanic mxHookInPanic ops none = .ok s2) :
    s2.getD [] = specHeldLocks ops ∧
    ∀ hdr, (s2.getD []).count hdr + countReleases hdr ops
         = countAcquires hdr ops := by
  obtain ⟨h1, h2⟩ := runOps_spec mxCheckRank mxInPanic mxHookInPanic ops
    none s2 h
  refine ⟨h1, fun hdr => ?_⟩
  simpa using h2 hdr

/-- Call sequence used by the C2 witness: acquire a rank-30 lock, acquire a
rank-20 lock without rank checking, release the rank-30 lock. -/
def wOps : List LockOp :=
  [.acquire hdrRank30 true, .acquire hdrRank20 false, .release hdrRank30]

/-- Witness for C2: after the three calls of wOps the thread holds exactly
the rank-20 header. -/
theorem mxuser_c2_witness :
    (some [hdrRank20] : Option (List MXUserHeader)).getD []
      = specHeldLocks wOps :=
  (mxuser_c2 none false none wOps (some [hdrRank20]) (by rfl)).1

/-- C5: a release of a header not present in the calling thread's tracker
record — or with no tracker record at all — dumps and panics; a release of
the header first found at index i shifts every later entry down by one
(the held list becomes the take/drop compaction) and decrements the held
count by one. -/
theorem mxuser_c5 (header : MXUserHeader) :
    MXUserReleaseTracking none header = .error .perThreadMissing ∧
    (∀ locks : List MXUserHeader, header ∉ locks →
      MXUserReleaseTracking (some locks) header = .error .lockMissing) ∧
    ∀ (locks : List MXUserHeader) (i : Nat),
      (∀ j, j < i → locks[j]? ≠ some header) → locks[i]? = some header →
      MXUserReleaseTracking (some locks) header
        = .ok (locks.take i ++ locks.drop (i + 1)) ∧
      (locks.take i ++ locks.drop (i + 1)).length + 1 = locks.length := by
  refine ⟨rfl, ?_, ?_⟩
  · intro locks h
    simp [MXUserReleaseTracking, findLockIdx_of_not_mem locks header h]
  · intro locks i hfirst hi
    have hidx : findLockIdx locks header = i :=
      findLockIdx_first locks header i hfirst hi
    have hlt : i < locks.length := by
      rcases List.getElem?_eq_some.mp hi with ⟨hw, _⟩
      exact hw
    constructor
    · simp only [MXUserReleaseTracking, hidx]
      rw [if_neg (by omega)]
      rw [List.eraseIdx_eq_take_drop_succ]
    · have h1 := List.length_take i locks
      have h2 := List.length_drop (i + 1) locks
      simp only [List.length_append]
      omega

/-- Witness for C5: releasing the rank-20 header first found at index 1 of
a three-entry record compacts the record to the two rank-30 entries. -/
theorem mxuser_c5_witness :
    MXUserReleaseTracking (some [hdrRank30, hdrRank20, hdrRank30]) hdrRank20
      = .ok ([hdrRank30, hdrRank20, hdrRank30].take 1 ++
          [hdrRank30, hdrRank20, hdrRank30].drop 2) ∧
    ([hdrRank30, hdrRank20, hdrRank30].take 1 ++
      [hdrRank30, hdrRank20, hdrRank30].drop 2).length + 1
      = ([hdrRank30, hdrRank20, hdrRank30] : List MXUserHeader).length :=
  (mxuser_c5 hdrRank20).2.2 [hdrRank30, hdrRank20, hdrRank30] 1
    (by decide) (by decide)

/-- C7: for every permitted object type (below 16 and not the reserved
never-use tag) the signature equals (syndrome & 0x0FFFFFFF) | (objectType
<< 28), is non-zero, and the syndrome itself is non-zero. -/
theorem mxuser_c7 (stored timeVal t : Nat) (ht : t < 16)
    (htn : t ≠ MXUSER_TYPE_NEVER_USE) :
    MXUserGetSignature stored timeVal t
      = some ((MXUserSyndrome stored timeVal &&& 0x0FFFFFFF) |||
          (t <<< 28)) ∧
    ((MXUserSyndrome stored timeVal &&& 0x0FFFFFFF) ||| (t <<< 28)) ≠ 0 ∧
    MXUserSyndrome stored timeVal ≠ 0 := by
  have htz : t ≠ 0 := by simpa [MXUSER_TYPE_NEVER_USE] using htn
  have hsh : t <<< 28 ≠ 0 := by
    rw [Nat.shiftLeft_eq]
    exact Nat.mul_ne_zero htz (by norm_num)
  have hnz : ((MXUserSyndrome stored timeVal &&& 0x0FFFFFFF) |||
      (t <<< 28)) ≠ 0 := lor_ne_zero_right _ _ hsh
  refine ⟨?_, hnz, ?_⟩
  · simp only [MXUserGetSignature, mxSignatureOf]
    rw [if_pos (And.intro ht htn), if_pos hnz]
  · simp only [MXUserSyndrome]
    split_ifs with h1 h2
    · omega
    · exact h2
    · exact h1

/-- Witness for C7: object type 1 over the zero stored syndrome word and a
zero time source. -/
theorem mxuser_c7_witness :
    MXUserGetSignature 0 0 1
      = some ((MXUserSyndrome 0 0 &&& 0x0FFFFFFF) ||| (1 <<< 28)) ∧
    ((MXUserSyndrome 0 0 &&& 0x0FFFFFFF) ||| (1 <<< 28)) ≠ 0 ∧
    MXUserSyndrome 0 0 ≠ 0 :=
  mxuser_c7 0 0 1 (by decide) (by decide)

/-- C6: a header carrying the signature produced for a valid tag t, with a
non-zero serial number and a clear bad-header flag, validates against t,
and validating it against any other valid tag fails fatally with the
signature-mismatch dump-and-panic. -/
theorem mxuser_c6 (stored timeVal t t2 : Nat) (header : MXUserHeader)
    (ht : t < 16) (htn : t ≠ MXUSER_TYPE_NEVER_USE)
    (ht2 : t2 < 16) (ht2n : t2 ≠ MXUSER_TYPE_NEVER_USE) (hne : t ≠ t2)
    (hsig : MXUserGetSignature stored timeVal t = some header.signature)
    (hser : header.serialNumber ≠ 0) (hbad : header.badHeader = false) :
    MXUserValidateHeader stored timeVal header t = .ok header ∧
    MXUserValidateHeader stored timeVal header t2
      = .error (.signatureMismatch (mxSignatureOf stored timeVal t2)
          header.signature) := by
  have h1 : mxSignatureOf stored timeVal t = header.signature := by
    rw [MXUserGetSignature, if_pos (And.intro ht htn)] at hsig
    by_cases hz : mxSignatureOf stored timeVal t ≠ 0
    · rw [if_pos hz] at hsig
      exact Option.some.inj hsig
    · rw [if_neg hz] at hsig
      exact absurd hsig (by simp)
  have ht2z : t2 ≠ 0 := by simpa [MXUSER_TYPE_NEVER_USE] using ht2n
  have hz2 : mxSignatureOf stored timeVal t2 ≠ 0 := by
    apply lor_ne_zero_right
    rw [Nat.shiftLeft_eq]
    exact Nat.mul_ne_zero ht2z (by norm_num)
  have hsig2 : MXUserGetSignature stored timeVal t2
      = some (mxSignatureOf stored timeVal t2) := by
    rw [MXUserGetSignature, if_pos (And.intro ht2 ht2n), if_pos hz2]
  have hneq : header.signature ≠ mxSignatureOf stored timeVal t2 := by
    rw [← h1]
    intro he
    simp only [mxSignatureOf] at he
    exact hne (lor_shift_inj _ _ _ (Nat.and_lt_two_pow _ (by norm_num)) he)
  constructor
  · simp only [MXUserValidateHeader, hsig]
    simp [hbad, hser]
  · simp only [MXUserValidateHeader, hsig2]
    simp [hbad, hneq]

/-- Header used by the C6 witness, carrying the signature for tag 1 over
the stored syndrome word 5. -/
def wValHdr : MXUserHeader := ⟨"h", mxSignatureOf 5 0 1, 7, 0, false⟩

/-- Witness for C6: the tag-1 signature validates as tag 1 and fails as
tag 2. -/
theorem mxuser_c6_witness :
    MXUserValidateHeader 5 0 wValHdr 1 = .ok wValHdr ∧
    MXUserValidateHeader 5 0 wValHdr 2
      = .error (.signatureMismatch (mxSignatureOf 5 0 2)
          wValHdr.signature) :=
  mxuser_c6 5 0 1 2 wValHdr (by decide) (by decide) (by decide) (by decide)
    (by decide) (by decide) (by decide) (by decide)

/-- Field-wise equality of two hook capability sets is equality. -/
theorem hookset_fields_eq_iff (a b : MxHookSet) :
    (a.lockLister = b.lockLister ∧ a.checkRank = b.checkRank ∧
     a.lockRec = b.lockRec ∧ a.unlockRec = b.unlockRec ∧
     a.tryLockRec = b.tryLockRec ∧ a.isLockedRec = b.isLockedRec ∧
     a.nameRec = b.nameRec ∧ a.setInPanicRec = b.setInPanicRec ∧
     a.inPanicRec = b.inPanicRec) ↔ a = b := by
  cases a
  cases b
  simp [MxHookSet.mk.injEq]

/-- A hook capability set with all nine slots NULL is the empty set. -/
theorem hookset_empty_iff (a : MxHookSet) :
    (a.lockLister = none ∧ a.checkRank = none ∧ a.lockRec = none ∧
     a.unlockRec = none ∧ a.tryLockRec = none ∧ a.isLockedRec = none ∧
     a.nameRec = none ∧ a.setInPanicRec = none ∧ a.inPanicRec = none)
    ↔ a = emptyMxHooks := by
  have h := hookset_fields_eq_iff a emptyMxHooks
  simpa [emptyMxHooks] using h

/-- C8: re-registering the same nine capability values returns normally
with the slots unchanged, while a registration differing from an
already-populated slot set fails the assertion. -/
theorem mxuser_c8 :
    (∀ h : MxHookSet, MXUserInstallMxHooks h h = some h) ∧
    ∀ cur supplied : MxHookSet, cur ≠ emptyMxHooks → supplied ≠ cur →
      MXUserInstallMxHooks cur supplied = none := by
  constructor
  · intro h
    unfold MXUserInstallMxHooks
    split_ifs with h1 h2
    · rfl
    · rfl
    · exact absurd ⟨rfl, rfl, rfl, rfl, rfl, rfl, rfl, rfl, rfl⟩ h2
  · intro cur supplied hne hne2
    unfold MXUserInstallMxHooks
    split_ifs with h1 h2
    · exact absurd ((hookset_empty_iff cur).mp h1) hne
    · exact absurd ((hookset_fields_eq_iff cur supplied).mp h2)
        (Ne.symm hne2)
    · rfl

/-- A fully populated hook capability set. -/
def wHooks : MxHookSet :=
  ⟨some 1, some 2, some 3, some 4, some 5, some 6, some 7, some 8, some 9⟩

/-- The same capability set with a different ninth value. -/
def wHooks2 : MxHookSet :=
  ⟨some 1, some 2, some 3, some 4, some 5, some 6, some 7, some 8, some 10⟩

/-- Witness for C8: re-registering wHooks succeeds unchanged; registering a
differing ninth value fails the assertion. -/
theorem mxuser_c8_witness :
    MXUserInstallMxHooks wHooks wHooks = some wHooks ∧
    MXUserInstallMxHooks wHooks wHooks2 = none :=
  ⟨mxuser_c8.1 wHooks, mxuser_c8.2 wHooks wHooks2 (by decide) (by decide)⟩

/-- C10: a first registration call supplying NULL for all nine capability
slots leaves every slot NULL, and a subsequent registration with any
(possibly non-NULL) values takes the installation branch and succeeds
rather than triggering the mismatch assertion. -/
theorem mxuser_c10 :
    MXUserInstallMxHooks emptyMxHooks emptyMxHooks = some emptyMxHooks ∧
    ∀ supplied : MxHookSet,
      MXUserInstallMxHooks emptyMxHooks supplied = some supplied := by
  exact ⟨rfl, fun _ => rfl⟩

end MXUser
